import Mathlib

/-!
Verification of the orchestration-and-parsing core of `apk-file-malice`
(`src/scan.go`), a Malice plugin that runs external file-analysis tools
(libmagic, ssdeep, TRiD, exiftool, apkfile.jar) against one input file and
aggregates their parsed outputs into one report.

The Go code is shallowly embedded:
* Go strings are Lean `String`s; Go `error` values are `Option String`
  carrying the text of `err.Error()` (`none` = nil error).
* The stdlib helpers the code calls (`strings.Split`, `strings.TrimSpace`,
  `strings.Contains`) and the `go-plugin-utils` helpers
  (`SliceContainsString`, `StringInSlice`, `CamelCase`) are embedded as
  executable functions over `List Char`, so every theorem below can be
  evaluated on concrete inputs by the kernel.
* A Go run-time panic (index out of range, slice bounds out of range) is
  modelled by an `Option` result being `none`.
* The channel-based magic-detection calls are modelled twice, by an event
  trace (for the cancellation/leak claims) and by an explicit
  state-transformer over the process-wide `fi` holder (for the
  global-state claims).
-/

/-- Embeds Go `strings.Split(s, sep)` for a one-character separator, at the
level of character lists: splits around every occurrence of `sep`, keeping
empty fields, and always returns at least one (possibly empty) field. -/
def splitCharList (sep : Char) : List Char → List (List Char)
  | [] => [[]]
  | c :: cs =>
    let r := splitCharList sep cs
    if c = sep then [] :: r
    else
      match r with
      | h :: t => (c :: h) :: t
      | [] => [[c]]

/-- Embeds Go `strings.Split(s, sep)` for the one-character separators the
program uses (`"\n"`, `":"`, `","`). -/
def goSplit (sep : Char) (s : String) : List String :=
  (splitCharList sep s.data).map String.mk

/-- Whitespace predicate of Go `strings.TrimSpace` (ASCII part of
`unicode.IsSpace`: space, tab, newline, vertical tab, form feed, carriage
return). -/
def isGoSpace (c : Char) : Bool :=
  c = ' ' || c = '\t' || c = '\n' || c = '\x0b' || c = '\x0c' || c = '\r'

/-- Embeds Go `strings.TrimSpace`: drops leading and trailing whitespace. -/
def goTrimSpace (s : String) : String :=
  ⟨((s.data.dropWhile isGoSpace).reverse.dropWhile isGoSpace).reverse⟩

/-- Helper for `goContains`: does `needle` occur as a contiguous run inside
the second list? -/
def infixOfAux (needle : List Char) : List Char → Bool
  | [] => needle.isEmpty
  | c :: cs => needle.isPrefixOf (c :: cs) || infixOfAux needle cs

/-- Embeds Go `strings.Contains(hay, needle)`. -/
def goContains (hay needle : String) : Bool :=
  infixOfAux needle.data hay.data

/-- Embeds `utils.SliceContainsString(a, list)` from
`maliceio/go-plugin-utils`: true when some element of `list` contains `a`
as a substring (it calls `strings.Contains(b, a)` on each element). -/
def SliceContainsString (a : String) (list : List String) : Bool :=
  list.any fun b => goContains b a

/-- Embeds `utils.StringInSlice(a, list)` from `maliceio/go-plugin-utils`:
exact membership of `a` in `list`. -/
def StringInSlice (a : String) (list : List String) : Bool :=
  list.any fun b => b == a

/-- The character class of the chunking regex `[0-9A-Za-z]+` used by
`utils.CamelCase`. -/
def isAlnumGo (c : Char) : Bool := c.isAlpha || c.isDigit

/-- Helper for `CamelCase`: the maximal alphanumeric chunks of a character
list, in order (the matches of `[0-9A-Za-z]+`); `acc` holds the current
chunk reversed. -/
def camelChunks (acc : List Char) : List Char → List (List Char)
  | [] => if acc.isEmpty then [] else [acc.reverse]
  | c :: cs =>
    if isAlnumGo c then camelChunks (c :: acc) cs
    else if acc.isEmpty then camelChunks [] cs
    else acc.reverse :: camelChunks [] cs

/-- Helper for `CamelCase`: embeds Go `bytes.Title` on one chunk —
upper-cases every letter that begins a word; a letter begins a word when
the previous character is not a letter (`prevLetter` tracks that). -/
def titleChars (prevLetter : Bool) : List Char → List Char
  | [] => []
  | c :: cs => (if c.isAlpha && !prevLetter then c.toUpper else c) :: titleChars c.isAlpha cs

/-- Embeds `utils.CamelCase(src)` from `maliceio/go-plugin-utils`: find all
matches of `[0-9A-Za-z]+`, apply `bytes.Title` to every chunk after the
first, and join the chunks with nothing in between (all other characters
are dropped). -/
def CamelCase (src : String) : String :=
  match camelChunks [] src.data with
  | [] => ""
  | h :: t => ⟨h ++ (t.map (titleChars false)).flatten⟩

/-- Go map assignment `datas[k] = v` on an association-list model of the
`map[string]string`: overwrite the entry for `k` when present, otherwise
append it. -/
def mapInsert (m : List (String × String)) (k v : String) : List (String × String) :=
  if m.any (fun p => p.1 == k) then
    m.map fun p => if p.1 == k then (k, v) else p
  else m ++ [(k, v)]

/-- The `ignoreTags` deny-list of `ParseExiftoolOutput`
(`src/scan.go:139-144`). -/
def ignoreTags : List String :=
  ["Directory", "File Name", "File Permissions", "File Modification Date/Time"]

/-- One iteration of the line loop of `ParseExiftoolOutput`
(`src/scan.go:156-164`): split the line on `":"`; skip it unless that gives
exactly two parts; skip it when the trimmed key is deny-listed; otherwise
assign `datas[TrimSpace(CamelCase(key))] = TrimSpace(value)`. -/
def exifStep (datas : List (String × String)) (line : String) : List (String × String) :=
  match goSplit ':' line with
  | [k, v] =>
    if StringInSlice (goTrimSpace k) ignoreTags then datas
    else mapInsert datas (goTrimSpace (CamelCase k)) (goTrimSpace v)
  | _ => datas

/-- Embeds `ParseExiftoolOutput` (`src/scan.go:131-167`). On a non-nil
invocation error it returns the one-entry map `error ↦ err.Error()`; when
some output line contains `"File not found"` it returns the nil map
(modelled as `[]`); otherwise it folds `exifStep` over the lines. -/
def ParseExiftoolOutput (exifout : String) (err : Option String) : List (String × String) :=
  match err with
  | some e => [("error", e)]
  | none =>
    if SliceContainsString "File not found" (goSplit '\n' exifout) then []
    else (goSplit '\n' exifout).foldl exifStep []

/-- Embeds `ParseSsdeepOutput` (`src/scan.go:170-189`). On a non-nil error
it returns the error text. When some line contains
`"No such file or directory"` it returns `""`. Otherwise the Go code
evaluates `lines[1]` unconditionally; with fewer than two lines that is an
index-out-of-range panic, modelled here as `none`. (The innermost `none`
arm is unreachable: `goSplit` never returns `[]`.) -/
def ParseSsdeepOutput (ssdout : String) (err : Option String) : Option String :=
  match err with
  | some e => some e
  | none =>
    if SliceContainsString "No such file or directory" (goSplit '\n' ssdout) then some ""
    else
      match goSplit '\n' ssdout with
      | _ :: line1 :: _ =>
        match goSplit ',' line1 with
        | h :: _ => some (goTrimSpace h)
        | [] => none
      | _ => none

/-- Embeds `ParseTRiDOutput` (`src/scan.go:192-217`). On a non-nil error it
returns the one-element list of the error text. When some line contains the
no-files diagnostic it returns the nil slice (modelled as `[]`). Otherwise
the Go code takes `lines[6:]`; with fewer than six lines that is a
slice-bounds panic, modelled as `none`; with at least six it keeps the
trimmed non-blank remaining lines in order. -/
def ParseTRiDOutput (tridout : String) (err : Option String) : Option (List String) :=
  match err with
  | some e => some [e]
  | none =>
    if SliceContainsString "Error: found no file(s) to analyze!" (goSplit '\n' tridout) then
      some []
    else if (goSplit '\n' tridout).length < 6 then none
    else
      some ((((goSplit '\n' tridout).drop 6).map goTrimSpace).filter fun l => !l.data.isEmpty)

/-- Environment of one magic-detection call (`GetFileMimeType`,
`src/scan.go:61-93`, or `GetFileDescription`, `src/scan.go:96-128`):
`expired` — the shared context's `Done` channel fires before the
background result is delivered (the `select` takes the `ctx.Done()` arm);
`openOk` — `magicmime.Open` succeeds inside the goroutine (when it fails,
`utils.Assert` calls `log.Fatal` and the whole process exits);
`tbfVal`/`tbfErr` — the value/error pair returned by
`magicmime.TypeByFile`; `ctxErr` — the text of `ctx.Err()`. -/
structure MagicEnv where
  expired : Bool
  openOk : Bool
  tbfVal : String
  tbfErr : Option String
  ctxErr : String

/-- Events of one magic-detection call: the goroutine's library calls
(`mopen` = `magicmime.Open`, `typeByFile`, deferred `mclose` =
`magicmime.Close`), the channel send/receive on `c`, and the caller's
observable actions (the cancel print, the assignment into the shared
`fi.Magic` field, the return). `procAbort` is the `log.Fatal` inside
`utils.Assert`. -/
inductive MEv where
  | mopen
  | typeByFile
  | send
  | recv
  | mclose
  | printCancel
  | assignMime (v : String)
  | assignDesc (v : String)
  | ret (r : Option String)
  | procAbort
deriving DecidableEq, Repr

/-- Event trace of `GetFileMimeType` (`src/scan.go:61-93`). The goroutine
runs Open, TypeByFile, the buffered send, then its deferred Close; the
caller's `select` receives from `c` in both arms (`<-c` in the `Done` arm,
`ok := <-c` in the other) and only then returns. The deferred `mclose` is
concurrent with the caller's post-receive actions; this trace is one
linearization of the call, and the properties proved of it (event counts,
receive-before-return) are the same in every linearization. -/
def GetFileMimeTypeTrace (env : MagicEnv) : List MEv :=
  if !env.openOk then [MEv.mopen, MEv.procAbort]
  else
    [MEv.mopen, MEv.typeByFile, MEv.send, MEv.recv] ++
      (if env.expired then [MEv.printCancel, MEv.ret (some env.ctxErr)]
       else
         match env.tbfErr with
         | some e => [MEv.assignMime e, MEv.ret (some e)]
         | none => [MEv.assignMime env.tbfVal, MEv.ret none]) ++
      [MEv.mclose]

/-- Event trace of `GetFileDescription` (`src/scan.go:96-128`); identical
shape to `GetFileMimeTypeTrace` except that it assigns
`fi.Magic.Description` (the Go functions differ only in the magic flags
passed to `magicmime.Open` and in the assigned field). -/
def GetFileDescriptionTrace (env : MagicEnv) : List MEv :=
  if !env.openOk then [MEv.mopen, MEv.procAbort]
  else
    [MEv.mopen, MEv.typeByFile, MEv.send, MEv.recv] ++
      (if env.expired then [MEv.printCancel, MEv.ret (some env.ctxErr)]
       else
         match env.tbfErr with
         | some e => [MEv.assignDesc e, MEv.ret (some e)]
         | none => [MEv.assignDesc env.tbfVal, MEv.ret none]) ++
      [MEv.mclose]

/-- The `FileMagic` struct (`src/scan.go:45-48`): the `Magic` field of the
process-wide holder `fi FileInfo` (`src/scan.go:31`). -/
structure FileMagic where
  mime : String
  description : String
deriving DecidableEq, Repr

/-- Effect of `GetFileMimeType` (`src/scan.go:80-92`) on the process-wide
holder's `fi.Magic`, as a state transformer, for the executions in which
the call returns (`env.openOk = true`; see `GetFileMimeTypeTrace` for the
aborting case): in the `ctx.Done()` arm it returns `ctx.Err()` without
touching `fi`; otherwise it assigns `fi.Magic.Mime` the detected mime type
or the detector's error text, and returns `nil` or that error. -/
def GetFileMimeTypeState (env : MagicEnv) (fi : FileMagic) : FileMagic × Option String :=
  if env.expired then (fi, some env.ctxErr)
  else
    match env.tbfErr with
    | some e => ({ fi with mime := e }, some e)
    | none => ({ fi with mime := env.tbfVal }, none)

/-- Effect of `GetFileDescription` (`src/scan.go:115-127`) on
`fi.Magic`, analogous to `GetFileMimeTypeState` but assigning the
`Description` field. -/
def GetFileDescriptionState (env : MagicEnv) (fi : FileMagic) : FileMagic × Option String :=
  if env.expired then (fi, some env.ctxErr)
  else
    match env.tbfErr with
    | some e => ({ fi with description := e }, some e)
    | none => ({ fi with description := env.tbfVal }, none)

/-- The magic portion of the report assembled by the scan paths
(`src/scan.go:279-288` in `webAvScan`, `src/scan.go:391-407` in the CLI
action): both call the two detection functions against the shared holder
and then read `Magic: fi.Magic` into the report, so the report's magic
field is whatever the holder contains after the two calls. -/
def webScanMagic (envM envD : MagicEnv) (fi0 : FileMagic) : FileMagic :=
  (GetFileDescriptionState envD (GetFileMimeTypeState envM fi0).1).1

/-- Environment of the CLI retry decision (`src/scan.go:391-400`):
`firstErr` — the error returned by the first magic-detection call;
`ctxErrAfter` — the value of `ctx.Err()` observed right after it (`none` =
context not yet expired or cancelled). -/
structure RetryEnv where
  firstErr : Option String
  ctxErrAfter : Option String

/-- Number of invocation attempts of one magic-detection call made by the
CLI action (`src/scan.go:391-395` for the mime call, `396-400` for the
description call): one unconditional call, plus one retry exactly when
`err != nil && ctx.Err() == nil`. -/
def cliMagicAttempts (env : RetryEnv) : Nat :=
  if env.firstErr.isSome && env.ctxErrAfter.isNone then 2 else 1

/-- Number of invocation attempts of one magic-detection call made by the
HTTP handler `webAvScan` (`src/scan.go:279-280`): each of
`GetFileMimeType` and `GetFileDescription` is invoked exactly once, its
error is discarded, and no retry logic exists on this path. -/
def webMagicAttempts (_env : RetryEnv) : Nat := 1

/-- The external-tool subprocess invocations of one CLI scan
(`src/scan.go:402-411`), in program order: `utils.RunCommand` is called
once for `java -jar apkfile.jar`, then once each for `ssdeep`, `trid`,
`exiftool` inside the report literal. -/
def cliToolInvocations : List String := ["java", "ssdeep", "trid", "exiftool"]

/-- The external-tool subprocess invocations of one HTTP scan
(`src/scan.go:282-291`): same four, each exactly once. -/
def webToolInvocations : List String := ["java", "ssdeep", "trid", "exiftool"]

/-- Observable events of the HTTP handler `webAvScan`
(`src/scan.go:243-301`). -/
inductive WebEv where
  | parseMultipartForm
  | writeHeader (code : Nat)
  | fprintln (msg : String)
  | logError
  | tempFile
  | readAll
  | writeTemp
  | scanPipeline
  | encodeJSON
deriving DecidableEq, Repr

/-- Terminal outcome of one `webAvScan` execution: a normal return, a
run-time panic from dereferencing the nil `file` handle, or a
`log.Fatal` process exit. -/
inductive WebOutcome where
  | completed
  | nilPanic
  | fatalExit
deriving DecidableEq, Repr

/-- Control flow of `webAvScan` (`src/scan.go:243-301`), keyed on whether
`r.FormFile("malware")` fails. On failure the handler writes the 400
status and the plain-text message and logs the error, but the branch has
no `return`: execution continues to `defer file.Close()`
(`src/scan.go:252`), where evaluating the method value `file.Close` on the
nil `multipart.File` interface panics (`ioutil.ReadAll(file)` at line 262
is a further use of the same nil handle, never reached). The success
branch is shown with every later collaborator succeeding — each of their
failures calls `log.Fatal`, which exits the process. -/
def webAvScanCtl (formFileErr : Bool) : List WebEv × WebOutcome :=
  if formFileErr then
    ([WebEv.parseMultipartForm, WebEv.writeHeader 400,
      WebEv.fprintln "Please supply a valid file to scan.", WebEv.logError],
     WebOutcome.nilPanic)
  else
    ([WebEv.parseMultipartForm, WebEv.tempFile, WebEv.readAll, WebEv.writeTemp,
      WebEv.scanPipeline, WebEv.writeHeader 200, WebEv.encodeJSON],
     WebOutcome.completed)

/-- Provenance of one entry of `ParseExiftoolOutput`'s result: the entry
comes from some line of the output that splits on `":"` into exactly a key
and a value whose trimmed key is not on the `ignoreTags` deny-list. -/
def ProvEntry (exifout : String) (p : String × String) : Prop :=
  ∃ line, line ∈ goSplit '\n' exifout ∧
    ∃ k v, goSplit ':' line = [k, v] ∧
      StringInSlice (goTrimSpace k) ignoreTags = false ∧
      p = (goTrimSpace (CamelCase k), goTrimSpace v)

/-- Membership in the association-list model of Go map assignment: an entry
of `mapInsert m k v` is an entry of `m` or is the assigned pair. -/
theorem mem_mapInsert {m : List (String × String)} {k v : String} {p : String × String}
    (h : p ∈ mapInsert m k v) : p ∈ m ∨ p = (k, v) := by
  unfold mapInsert at h
  split at h
  · rcases List.mem_map.1 h with ⟨q, hq, he⟩
    split at he
    · right; exact he.symm
    · left; exact he ▸ hq
  · rcases List.mem_append.1 h with h1 | h2
    · exact Or.inl h1
    · right; simpa using h2

/-- Every entry accumulated by folding `exifStep` over lines of the output
has provenance: it stems from a line that splits on `":"` into exactly two
parts with a non-deny-listed trimmed key. -/
theorem prov_foldl_exifStep (exifout : String) :
    ∀ (ls : List String) (acc : List (String × String)) (p : String × String),
      (∀ l ∈ ls, l ∈ goSplit '\n' exifout) →
      (∀ q ∈ acc, ProvEntry exifout q) →
      p ∈ ls.foldl exifStep acc → ProvEntry exifout p := by
  intro ls
  induction ls with
  | nil =>
    intro acc p _ hacc hp
    exact hacc p hp
  | cons l ls ih =>
    intro acc p hls hacc hp
    refine ih (exifStep acc l) p (fun x hx => hls x (List.mem_cons_of_mem _ hx)) ?_ hp
    intro q hq
    have hl : l ∈ goSplit '\n' exifout := hls l (List.mem_cons_self _ _)
    unfold exifStep at hq
    rcases hsp : goSplit ':' l with _ | ⟨k, _ | ⟨v, _ | ⟨w, tl⟩⟩⟩ <;> rw [hsp] at hq
    · exact hacc q hq
    · exact hacc q hq
    · have hq2 : q ∈ (if StringInSlice (goTrimSpace k) ignoreTags = true then acc
          else mapInsert acc (goTrimSpace (CamelCase k)) (goTrimSpace v)) := hq
      by_cases hig : StringInSlice (goTrimSpace k) ignoreTags = true
      · rw [if_pos hig] at hq2; exact hacc q hq2
      · rw [if_neg hig] at hq2
        rcases mem_mapInsert hq2 with hmem | heq
        · exact hacc q hmem
        · exact ⟨l, hl, k, v, hsp, Bool.eq_false_iff.mpr hig, heq⟩
    · exact hacc q hq

/-- Claim C1: on `err = nil` the parsers are claimed total, but the
fuzzy-hash parser indexes `lines[1]` and the identification parser slices
`lines[6:]` unconditionally (`src/scan.go:186`, `src/scan.go:208`), so on
empty or truncated output both panic (modelled as `none`); the tool's own
"not found" diagnostics and the metadata parser are handled, as shown by
the remaining conjuncts. -/
theorem parser_truncation_faults :
    ParseSsdeepOutput "" none = none ∧
    ParseSsdeepOutput "ssdeep,1.1--blocksize:hash:hash,filename" none = none ∧
    ParseSsdeepOutput "x: No such file or directory" none = some "" ∧
    ParseTRiDOutput "" none = none ∧
    ParseTRiDOutput "line1\nline2\nline3\nline4\nline5" none = none ∧
    ParseTRiDOutput "Error: found no file(s) to analyze!" none = some [] ∧
    ParseExiftoolOutput "" none = [] := by decide

/-- Claim C7: on a non-nil invocation error each parser returns the error
text as a degraded field value — the digest result for ssdeep, a
single-element sequence for TRiD, and the single-entry `error` mapping for
exiftool — and none of the three faults. -/
theorem parsers_error_text_degraded (out e : String) :
    ParseSsdeepOutput out (some e) = some e ∧
    ParseTRiDOutput out (some e) = some [e] ∧
    ParseExiftoolOutput out (some e) = [("error", e)] :=
  ⟨rfl, rfl, rfl⟩

/-- Claim C4, counterexample: a line whose value contains further colons
(a timestamp) yields NO entry — `strings.Split(line, ":")` splits on every
colon, giving five parts here, and `len(keyvalue) != 2` discards the line
(`src/scan.go:157-159`), contradicting the claimed split-on-first-colon
behaviour. -/
theorem exiftool_first_colon_counterexample :
    ParseExiftoolOutput "CreateDate: 2017:03:07 10:02:11" none = [] := by decide

/-- Claim C4, amended: `ParseExiftoolOutput` splits each line on every
colon and keeps the line only when that yields exactly two parts (trimmed
key not deny-listed); any line with a different number of colon-parts —
in particular one whose value itself contains a colon — is discarded. -/
theorem exiftool_splits_on_every_colon (line k v : String)
    (hone : goSplit '\n' line = [line])
    (hnf : SliceContainsString "File not found" [line] = false) :
    (goSplit ':' line = [k, v] →
      ParseExiftoolOutput line none =
        if StringInSlice (goTrimSpace k) ignoreTags then []
        else [(goTrimSpace (CamelCase k), goTrimSpace v)]) ∧
    ((goSplit ':' line).length ≠ 2 → ParseExiftoolOutput line none = []) := by
  have hbase : ParseExiftoolOutput line none = exifStep [] line := by
    simp only [ParseExiftoolOutput, hone, hnf]
    simp [List.foldl]
  constructor
  · intro hkv
    rw [hbase]
    unfold exifStep
    rw [hkv]
    by_cases hig : StringInSlice (goTrimSpace k) ignoreTags
    · simp [hig]
    · simp [hig, mapInsert]
  · intro hlen
    rw [hbase]
    unfold exifStep
    rcases hsp : goSplit ':' line with _ | ⟨a, _ | ⟨b, _ | ⟨c, tl⟩⟩⟩
    · rfl
    · rfl
    · rw [hsp] at hlen; simp at hlen
    · rfl

/-- Witness for the amended claim C4 at a concrete exiftool line. -/
theorem exiftool_splits_on_every_colon_witness :
    (goSplit ':' "File Size: 10 kB" = ["File Size", " 10 kB"] →
      ParseExiftoolOutput "File Size: 10 kB" none =
        if StringInSlice (goTrimSpace "File Size") ignoreTags then []
        else [(goTrimSpace (CamelCase "File Size"), goTrimSpace " 10 kB")]) ∧
    ((goSplit ':' "File Size: 10 kB").length ≠ 2 →
      ParseExiftoolOutput "File Size: 10 kB" none = []) :=
  exiftool_splits_on_every_colon "File Size: 10 kB" "File Size" " 10 kB"
    (by decide) (by decide)

/-- Claim C8: every entry of `ParseExiftoolOutput`'s result mapping stems
from a line whose trimmed key is NOT on the deny-list (`Directory`,
`File Name`, `File Permissions`, `File Modification Date/Time`), so no
deny-listed key ever yields an entry; in particular the line
`File Name: foo.exe` produces no entry at all. -/
theorem exiftool_denied_keys_dropped :
    (∀ exifout p, p ∈ ParseExiftoolOutput exifout none → ProvEntry exifout p) ∧
    ParseExiftoolOutput "File Name: foo.exe" none = [] := by
  constructor
  · intro exifout p hp
    simp only [ParseExiftoolOutput] at hp
    split at hp
    · simp at hp
    · exact prov_foldl_exifStep exifout (goSplit '\n' exifout) [] p
        (fun x hx => hx) (by intro q hq; simp at hq) hp
  · decide

/-- Witness for claim C8: the sole entry of a concrete parse has the
provenance the theorem asserts. -/
theorem exiftool_denied_keys_dropped_witness :
    ProvEntry "File Size: 10 kB" ("FileSize", "10 kB") :=
  exiftool_denied_keys_dropped.1 "File Size: 10 kB" ("FileSize", "10 kB") (by decide)

/-- Claim C6: when the TRiD output has no no-files diagnostic and at least
one line after the 6-line banner, the parser returns exactly the lines
after the first 6, trimmed, with blank lines removed, in their original
relevance order (the result is a sublist of the trimmed tail, so no
reordering occurs). -/
theorem trid_banner_drop (tridout : String)
    (hdiag : SliceContainsString "Error: found no file(s) to analyze!"
      (goSplit '\n' tridout) = false)
    (hlen : 7 ≤ (goSplit '\n' tridout).length) :
    ParseTRiDOutput tridout none =
      some ((((goSplit '\n' tridout).drop 6).map goTrimSpace).filter fun l => !l.data.isEmpty) ∧
    List.Sublist
      ((((goSplit '\n' tridout).drop 6).map goTrimSpace).filter fun l => !l.data.isEmpty)
      (((goSplit '\n' tridout).drop 6).map goTrimSpace) := by
  constructor
  · have h1 : ¬ (SliceContainsString "Error: found no file(s) to analyze!"
        (goSplit '\n' tridout) = true) := by simp [hdiag]
    have h2 : ¬ ((goSplit '\n' tridout).length < 6) := by omega
    simp only [ParseTRiDOutput, if_neg h1, if_neg h2]
  · exact List.filter_sublist _

/-- Witness for claim C6 at a concrete seven-line TRiD output. -/
theorem trid_banner_drop_witness :
    ParseTRiDOutput "b1\nb2\nb3\nb4\nb5\nb6\n 90.0% (.APK) Android Package \n\n 9.0% (.ZIP) ZIP " none =
      some ((((goSplit '\n' "b1\nb2\nb3\nb4\nb5\nb6\n 90.0% (.APK) Android Package \n\n 9.0% (.ZIP) ZIP ").drop 6).map goTrimSpace).filter fun l => !l.data.isEmpty) ∧
    List.Sublist
      ((((goSplit '\n' "b1\nb2\nb3\nb4\nb5\nb6\n 90.0% (.APK) Android Package \n\n 9.0% (.ZIP) ZIP ").drop 6).map goTrimSpace).filter fun l => !l.data.isEmpty)
      (((goSplit '\n' "b1\nb2\nb3\nb4\nb5\nb6\n 90.0% (.APK) Android Package \n\n 9.0% (.ZIP) ZIP ").drop 6).map goTrimSpace) :=
  trid_banner_drop "b1\nb2\nb3\nb4\nb5\nb6\n 90.0% (.APK) Android Package \n\n 9.0% (.ZIP) ZIP "
    (by decide) (by decide)

/-- Claim C2: when the deadline expires during a magic-detection call, the
caller still receives from `c` (waiting for the background detection to
deliver its result) before returning, the scope's cancellation error is
the call's outcome, and in every returning execution the trace holds one
`magicmime.Open` and one `magicmime.Close`, so the detection-library
handle never leaks, cancellation included. -/
theorem magic_cancel_waits_and_balances (env : MagicEnv) (hopen : env.openOk = true) :
    (env.expired = true →
      (∃ pre post, GetFileMimeTypeTrace env = pre ++ MEv.recv :: post ∧
        MEv.ret (some env.ctxErr) ∈ post) ∧
      (∃ pre post, GetFileDescriptionTrace env = pre ++ MEv.recv :: post ∧
        MEv.ret (some env.ctxErr) ∈ post)) ∧
    (GetFileMimeTypeTrace env).count MEv.mopen = (GetFileMimeTypeTrace env).count MEv.mclose ∧
    (GetFileDescriptionTrace env).count MEv.mopen =
      (GetFileDescriptionTrace env).count MEv.mclose := by
  obtain ⟨exp, opok, tv, te, ce⟩ := env
  cases hopen
  refine ⟨fun hexp => ?_, ?_, ?_⟩
  · cases hexp
    exact ⟨⟨[MEv.mopen, MEv.typeByFile, MEv.send],
        [MEv.printCancel, MEv.ret (some ce), MEv.mclose], rfl, by simp⟩,
      ⟨[MEv.mopen, MEv.typeByFile, MEv.send],
        [MEv.printCancel, MEv.ret (some ce), MEv.mclose], rfl, by simp⟩⟩
  · cases exp <;> cases te <;> rfl
  · cases exp <;> cases te <;> rfl

/-- Witness for claim C2 at a concrete expired environment. -/
theorem magic_cancel_waits_and_balances_witness :
    ((⟨true, true, "text/plain", none, "context deadline exceeded"⟩ : MagicEnv).expired = true →
      (∃ pre post, GetFileMimeTypeTrace ⟨true, true, "text/plain", none, "context deadline exceeded"⟩ =
          pre ++ MEv.recv :: post ∧
        MEv.ret (some (⟨true, true, "text/plain", none, "context deadline exceeded"⟩ : MagicEnv).ctxErr) ∈ post) ∧
      (∃ pre post, GetFileDescriptionTrace ⟨true, true, "text/plain", none, "context deadline exceeded"⟩ =
          pre ++ MEv.recv :: post ∧
        MEv.ret (some (⟨true, true, "text/plain", none, "context deadline exceeded"⟩ : MagicEnv).ctxErr) ∈ post)) ∧
    (GetFileMimeTypeTrace ⟨true, true, "text/plain", none, "context deadline exceeded"⟩).count MEv.mopen =
      (GetFileMimeTypeTrace ⟨true, true, "text/plain", none, "context deadline exceeded"⟩).count MEv.mclose ∧
    (GetFileDescriptionTrace ⟨true, true, "text/plain", none, "context deadline exceeded"⟩).count MEv.mopen =
      (GetFileDescriptionTrace ⟨true, true, "text/plain", none, "context deadline exceeded"⟩).count MEv.mclose :=
  magic_cancel_waits_and_balances ⟨true, true, "text/plain", none, "context deadline exceeded"⟩ rfl

/-- Claim C3, counterexample: on the HTTP path a magic-detection call that
fails with a transient non-cancellation error is NOT retried —
`webAvScan` makes exactly one attempt (`src/scan.go:279-280`), not the two
the claim asserts for every scan path. -/
theorem web_no_retry_counterexample :
    webMagicAttempts ⟨some "magic: transient failure", none⟩ = 1 ∧
    ¬ webMagicAttempts ⟨some "magic: transient failure", none⟩ = 2 := by decide

/-- Claim C3, amended: only the CLI action retries a failed magic-detection
call, exactly once and only while the context is unexpired (so at most 2
attempts, and exactly 2 precisely on a non-expiry failure); the HTTP
handler always makes exactly 1 attempt per probe; and on both paths every
other external tool is invoked exactly once, never retried. -/
theorem retry_once_cli_only (env : RetryEnv) :
    cliMagicAttempts env ≤ 2 ∧
    (cliMagicAttempts env = 2 ↔ env.firstErr.isSome = true ∧ env.ctxErrAfter = none) ∧
    webMagicAttempts env = 1 ∧
    cliToolInvocations.count "java" = 1 ∧
    cliToolInvocations.count "ssdeep" = 1 ∧
    cliToolInvocations.count "trid" = 1 ∧
    cliToolInvocations.count "exiftool" = 1 ∧
    webToolInvocations.count "java" = 1 ∧
    webToolInvocations.count "ssdeep" = 1 ∧
    webToolInvocations.count "trid" = 1 ∧
    webToolInvocations.count "exiftool" = 1 := by
  obtain ⟨fe, ce⟩ := env
  refine ⟨?_, ?_, rfl, by decide, by decide, by decide, by decide,
    by decide, by decide, by decide, by decide⟩
  · cases fe <;> cases ce <;> simp [cliMagicAttempts]
  · cases fe <;> cases ce <;> simp [cliMagicAttempts]

/-- Claim C5, counterexample: a successful mime-detection call mutates the
process-wide holder `fi` — state outside its own call frame — rather than
only returning a value: starting from an empty holder, the holder differs
after the call. -/
theorem magic_probe_mutates_global_counterexample :
    (GetFileMimeTypeState ⟨false, true, "text/plain", none, ""⟩ ⟨"", ""⟩).1 ≠
      (⟨"", ""⟩ : FileMagic) := by decide

/-- Claim C5, amended: the Magic Probe does NOT deliver its result by
value — its return value is only the error outcome — and instead records
the detected mime type and description by assignment into the shared
process-wide holder `fi.Magic` (`src/scan.go:31`, `87`, `90`, `122`,
`125`), from which the scan paths later read `Magic: fi.Magic` when
assembling the report. -/
theorem magic_result_via_shared_holder (envM envD : MagicEnv) (fi0 : FileMagic)
    (hM : envM.expired = false) (hD : envD.expired = false)
    (eM : envM.tbfErr = none) (eD : envD.tbfErr = none) :
    (GetFileMimeTypeState envM fi0).1 = { fi0 with mime := envM.tbfVal } ∧
    (GetFileMimeTypeState envM fi0).2 = none ∧
    webScanMagic envM envD fi0 = ⟨envM.tbfVal, envD.tbfVal⟩ := by
  simp [GetFileMimeTypeState, GetFileDescriptionState, webScanMagic, hM, hD, eM, eD]

/-- Witness for the amended claim C5 at concrete environments. -/
theorem magic_result_via_shared_holder_witness :
    (GetFileMimeTypeState ⟨false, true, "text/plain", none, ""⟩ ⟨"", ""⟩).1 =
      { (⟨"", ""⟩ : FileMagic) with
        mime := (⟨false, true, "text/plain", none, ""⟩ : MagicEnv).tbfVal } ∧
    (GetFileMimeTypeState ⟨false, true, "text/plain", none, ""⟩ ⟨"", ""⟩).2 = none ∧
    webScanMagic ⟨false, true, "text/plain", none, ""⟩
        ⟨false, true, "ASCII text", none, ""⟩ ⟨"", ""⟩ =
      ⟨(⟨false, true, "text/plain", none, ""⟩ : MagicEnv).tbfVal,
       (⟨false, true, "ASCII text", none, ""⟩ : MagicEnv).tbfVal⟩ :=
  magic_result_via_shared_holder ⟨false, true, "text/plain", none, ""⟩
    ⟨false, true, "ASCII text", none, ""⟩ ⟨"", ""⟩ rfl rfl rfl rfl

/-- Claim C9: when the multipart `malware` field is missing or invalid,
`webAvScan` writes the 400 status and the plain-text message but does not
return; execution continues past the error branch and panics dereferencing
the nil file handle (at the `defer file.Close()` method-value evaluation,
`src/scan.go:252`), so the error branch is not a safe terminal path. -/
theorem webavscan_error_branch_not_terminal :
    (webAvScanCtl true).2 = WebOutcome.nilPanic ∧
    (webAvScanCtl true).1 =
      [WebEv.parseMultipartForm, WebEv.writeHeader 400,
       WebEv.fprintln "Please supply a valid file to scan.", WebEv.logError] ∧
    (webAvScanCtl true).2 ≠ WebOutcome.completed := by decide

/-- Claim C10: on deadline expiry a magic-detection call returns the
cancellation error and leaves the process-wide holder untouched, so the
report assembled afterwards carries the holder's previous value for that
field (empty, or stale from an earlier scan in the same process), not a
cancellation marker. -/
theorem magic_expiry_keeps_stale_field (env : MagicEnv) (fi0 : FileMagic)
    (h : env.expired = true) :
    GetFileMimeTypeState env fi0 = (fi0, some env.ctxErr) ∧
    GetFileDescriptionState env fi0 = (fi0, some env.ctxErr) ∧
    webScanMagic env env fi0 = fi0 := by
  simp [GetFileMimeTypeState, GetFileDescriptionState, webScanMagic, h]

/-- Witness for claim C10: with both calls expiring, the report's magic
field is exactly the holder's stale pre-scan content. -/
theorem magic_expiry_keeps_stale_field_witness :
    GetFileMimeTypeState ⟨true, true, "", none, "context deadline exceeded"⟩
        ⟨"application/zip", "Zip archive data"⟩ =
      (⟨"application/zip", "Zip archive data"⟩,
       some (⟨true, true, "", none, "context deadline exceeded"⟩ : MagicEnv).ctxErr) ∧
    GetFileDescriptionState ⟨true, true, "", none, "context deadline exceeded"⟩
        ⟨"application/zip", "Zip archive data"⟩ =
      (⟨"application/zip", "Zip archive data"⟩,
       some (⟨true, true, "", none, "context deadline exceeded"⟩ : MagicEnv).ctxErr) ∧
    webScanMagic ⟨true, true, "", none, "context deadline exceeded"⟩
        ⟨true, true, "", none, "context deadline exceeded"⟩
        ⟨"application/zip", "Zip archive data"⟩ =
      ⟨"application/zip", "Zip archive data"⟩ :=
  magic_expiry_keeps_stale_field ⟨true, true, "", none, "context deadline exceeded"⟩
    ⟨"application/zip", "Zip archive data"⟩ rfl
